/-
Verification of the evm-test repository: a Python CLI (`evm_cli.py`) and a thin
client library (`evm_client/client.py`) over web3. This file gives a shallow
embedding of the code and proves properties of it.
-/
import Mathlib

set_option maxHeartbeats 1000000

/-- Python exceptions as seen by `_normalise`: the code catches exactly
`TypeError`; every other exception class is represented by its name and
propagates. -/
inductive PyErr where
  | typeError : PyErr
  | otherError : String → PyErr
deriving DecidableEq, Repr

/-- Python values that can reach `_normalise` in `evm_cli.py`.  Scalars carry
their observable renderings: `float h j` is a Python float whose `hex()`
method returns `h` and whose JSON/`repr` rendering is `j` (floats expose a
callable `hex` attribute, so they hit the duck-typed branch of `_normalise`).
`hexable w` is any object with a callable `hex` attribute whose invocation
returns `w`; `hexraise e` is such an object whose invocation raises `e`.
`attrDict` is a `web3.datastructures.AttributeDict` (an ordered mapping);
`dict` is a plain Python dict (also ordered); `bytes` carries the byte values
(each `< 256`). -/
inductive Value where
  | none : Value
  | bool : Bool → Value
  | int : Int → Value
  | str : String → Value
  | float : String → String → Value
  | bytes : List Nat → Value
  | list : List Value → Value
  | tuple : List Value → Value
  | attrDict : List (String × Value) → Value
  | dict : List (String × Value) → Value
  | hexable : Value → Value
  | hexraise : PyErr → Value
deriving Repr

/-- One hex digit, lowercase, as produced by Python `bytes.hex` (`0`-`9`,
`a`-`f`). -/
def hexDigitChar (n : Nat) : Char :=
  if n < 10 then Char.ofNat (48 + n) else Char.ofNat (87 + n)

/-- The two hex digits of one byte, as in Python `bytes.hex`. -/
def byteHexChars (b : Nat) : List Char :=
  [hexDigitChar (b / 16), hexDigitChar (b % 16)]

/-- Python `bytes.hex()`: lowercase hexadecimal rendering of a byte string,
two digits per byte, no prefix. -/
def bytesHex (bs : List Nat) : String :=
  String.mk (bs.map byteHexChars).flatten

mutual

/-- Embedding of `_normalise` from `evm_cli.py`: `AttributeDict` becomes a
plain dict of normalised values, lists and tuples are normalised elementwise,
`bytes` become their lowercase hex string, a value with a callable `hex`
attribute is converted via that attribute with `TypeError` caught and ignored
(the original value is returned), and everything else is returned unchanged.
A raised exception other than `TypeError` propagates, which the `Except`
result records. -/
def _normalise : Value → Except PyErr Value
  | .attrDict kvs => (normPairs kvs).map Value.dict
  | .list items => (normList items).map Value.list
  | .tuple items => (normList items).map Value.tuple
  | .bytes bs => .ok (.str (bytesHex bs))
  | .float h _ => .ok (.str h)
  | .hexable w => .ok w
  | .hexraise .typeError => .ok (.hexraise .typeError)
  | .hexraise (.otherError m) => .error (.otherError m)
  | v => .ok v

/-- Elementwise normalisation of a list, stopping at the first raised
exception (Python list/tuple comprehension semantics). -/
def normList : List Value → Except PyErr (List Value)
  | [] => .ok []
  | v :: vs =>
    match _normalise v with
    | .error e => .error e
    | .ok w =>
      match normList vs with
      | .error e => .error e
      | .ok ws => .ok (w :: ws)

/-- Valuewise normalisation of the entries of a mapping, keys kept in order,
stopping at the first raised exception (dict comprehension semantics). -/
def normPairs : List (String × Value) → Except PyErr (List (String × Value))
  | [] => .ok []
  | (k, v) :: rest =>
    match _normalise v with
    | .error e => .error e
    | .ok w =>
      match normPairs rest with
      | .error e => .error e
      | .ok ws => .ok ((k, w) :: ws)

end

/-- Lower-case hex digit test (`0`-`9`, `a`-`f`). -/
def isLowerHexChar (c : Char) : Bool :=
  ('0' ≤ c && c ≤ '9') || ('a' ≤ c && c ≤ 'f')

/-- Value of a hex digit character, either case. -/
def hexCharVal (c : Char) : Option Nat :=
  if '0' ≤ c && c ≤ '9' then some (c.toNat - 48)
  else if 'a' ≤ c && c ≤ 'f' then some (c.toNat - 87)
  else if 'A' ≤ c && c ≤ 'F' then some (c.toNat - 55)
  else Option.none

/-- Decode a hex string back into its byte values, two digits per byte
(as Python `bytes.fromhex` on a string without separators). -/
def decodeHexChars : List Char → Option (List Nat)
  | [] => some []
  | c1 :: c2 :: rest =>
    match hexCharVal c1, hexCharVal c2, decodeHexChars rest with
    | some v1, some v2, some bs => some ((16 * v1 + v2) :: bs)
    | _, _, _ => Option.none
  | [_] => Option.none

/-- Whitespace skipped by Python `json.loads`. -/
def jsonSkipWs : List Char → List Char
  | [] => []
  | c :: cs => if c = ' ' || c = '\t' || c = '\n' || c = '\r' then jsonSkipWs cs else c :: cs

/-- ASCII decimal digit test. -/
def isDigitChar (c : Char) : Bool := '0' ≤ c && c ≤ '9'

/-- Take the longest digit run at the head of the input. -/
def takeDigits : List Char → (List Char × List Char)
  | [] => ([], [])
  | c :: cs =>
    if isDigitChar c then
      let p := takeDigits cs
      (c :: p.1, p.2)
    else ([], c :: cs)

/-- Numeric value of a digit run. -/
def digitsVal (ds : List Char) : Nat :=
  ds.foldl (fun a c => 10 * a + (c.toNat - 48)) 0

/-- JSON number integer part: `0` or a nonzero digit followed by digits
(Python json `NUMBER_RE`). -/
def parseIntPart : List Char → Option (List Char × List Char)
  | [] => Option.none
  | c :: cs =>
    if c = '0' then some ([c], cs)
    else if '1' ≤ c && c ≤ '9' then
      let p := takeDigits cs
      some (c :: p.1, p.2)
    else Option.none

/-- JSON number optional fraction part: a dot followed by at least one digit,
otherwise nothing is consumed. -/
def parseFrac : List Char → (List Char × List Char)
  | '.' :: c :: cs =>
    if isDigitChar c then
      let p := takeDigits cs
      ('.' :: c :: p.1, p.2)
    else ([], '.' :: c :: cs)
  | l => ([], l)

/-- JSON number optional exponent part: `e`/`E`, optional sign, at least one
digit, otherwise nothing is consumed. -/
def parseExp : List Char → (List Char × List Char)
  | e :: s :: d :: ds =>
    if e = 'e' || e = 'E' then
      if (s = '+' || s = '-') && isDigitChar d then
        let p := takeDigits ds
        (e :: s :: d :: p.1, p.2)
      else if isDigitChar s then
        let p := takeDigits (d :: ds)
        (e :: s :: p.1, p.2)
      else ([], e :: s :: d :: ds)
    else ([], e :: s :: d :: ds)
  | e :: s :: r =>
    if (e = 'e' || e = 'E') && isDigitChar s then (e :: s :: r, [])
    else ([], e :: s :: r)
  | l => ([], l)

/-- Parse one JSON number at the head of the input.  A pure-integer lexeme
becomes a Python int; a lexeme with fraction or exponent becomes the float
conversion `pf` of the lexeme. -/
def parseNumber (pf : String → Value) (l : List Char) : Option (Value × List Char) :=
  let neg : Bool := match l with
    | '-' :: _ => true
    | _ => false
  let l1 := match l with
    | '-' :: t => t
    | _ => l
  match parseIntPart l1 with
  | Option.none => Option.none
  | some (ds, r1) =>
    let pf1 := parseFrac r1
    let pe := parseExp pf1.2
    if pf1.1 = [] && pe.1 = [] then
      let n : Int := Int.ofNat (digitsVal ds)
      some (Value.int (if neg then -n else n), pe.2)
    else
      some (pf (String.mk ((if neg then ['-'] else []) ++ ds ++ pf1.1 ++ pe.1)), pe.2)

/-- Parse the body of a JSON string after the opening quote, strict mode:
unescaped control characters are an error.  Each `\u` escape becomes one
character (surrogate-pair combination is not modelled). -/
def parseJsonStringBody : List Char → Option (List Char × List Char)
  | [] => Option.none
  | c :: cs =>
    if c = '"' then some ([], cs)
    else if c = '\\' then
      match cs with
      | [] => Option.none
      | e :: es =>
        if e = 'u' then
          match es with
          | a :: b :: c2 :: d :: r =>
            match hexCharVal a, hexCharVal b, hexCharVal c2, hexCharVal d with
            | some va, some vb, some vc, some vd =>
              (parseJsonStringBody r).map
                (fun p => (Char.ofNat (4096 * va + 256 * vb + 16 * vc + vd) :: p.1, p.2))
            | _, _, _, _ => Option.none
          | _ => Option.none
        else
          match (if e = '"' then some '"' else if e = '\\' then some '\\'
                 else if e = '/' then some '/' else if e = 'b' then some (Char.ofNat 8)
                 else if e = 'f' then some (Char.ofNat 12) else if e = 'n' then some '\n'
                 else if e = 'r' then some '\r' else if e = 't' then some '\t'
                 else Option.none : Option Char) with
          | some ch => (parseJsonStringBody es).map (fun p => (ch :: p.1, p.2))
          | Option.none => Option.none
    else if c.toNat < 32 then Option.none
    else (parseJsonStringBody cs).map (fun p => (c :: p.1, p.2))

mutual

/-- Fuel-indexed parser for one JSON value at the head of the input,
following Python `json.loads` (with its default acceptance of the `NaN`,
`Infinity` and `-Infinity` constants, which become floats via `pf`). -/
def parseJsonValue (pf : String → Value) : Nat → List Char → Option (Value × List Char)
  | 0, _ => Option.none
  | fuel + 1, l =>
    match jsonSkipWs l with
    | 'n' :: 'u' :: 'l' :: 'l' :: r => some (Value.none, r)
    | 't' :: 'r' :: 'u' :: 'e' :: r => some (Value.bool true, r)
    | 'f' :: 'a' :: 'l' :: 's' :: 'e' :: r => some (Value.bool false, r)
    | 'N' :: 'a' :: 'N' :: r => some (pf "NaN", r)
    | 'I' :: 'n' :: 'f' :: 'i' :: 'n' :: 'i' :: 't' :: 'y' :: r => some (pf "Infinity", r)
    | '-' :: 'I' :: 'n' :: 'f' :: 'i' :: 'n' :: 'i' :: 't' :: 'y' :: r => some (pf "-Infinity", r)
    | '"' :: r => (parseJsonStringBody r).map (fun p => (Value.str (String.mk p.1), p.2))
    | '[' :: r =>
      match jsonSkipWs r with
      | ']' :: r2 => some (Value.list [], r2)
      | l2 => (parseJsonArrayItems pf fuel l2).map (fun p => (Value.list p.1, p.2))
    | c :: r =>
      if c = Char.ofNat 123 then
        match jsonSkipWs r with
        | c2 :: r2 =>
          if c2 = Char.ofNat 125 then some (Value.dict [], r2)
          else (parseJsonObjectItems pf fuel (c2 :: r2)).map (fun p => (Value.dict p.1, p.2))
        | [] => Option.none
      else parseNumber pf (c :: r)
    | [] => Option.none

/-- Comma-separated JSON array items up to the closing bracket. -/
def parseJsonArrayItems (pf : String → Value) : Nat → List Char → Option (List Value × List Char)
  | 0, _ => Option.none
  | fuel + 1, l =>
    match parseJsonValue pf fuel l with
    | Option.none => Option.none
    | some (v, r) =>
      match jsonSkipWs r with
      | ',' :: r2 => (parseJsonArrayItems pf fuel r2).map (fun p => (v :: p.1, p.2))
      | ']' :: r2 => some ([v], r2)
      | _ => Option.none

/-- Comma-separated JSON object entries up to the closing brace. -/
def parseJsonObjectItems (pf : String → Value) :
    Nat → List Char → Option (List (String × Value) × List Char)
  | 0, _ => Option.none
  | fuel + 1, l =>
    match jsonSkipWs l with
    | '"' :: r =>
      match parseJsonStringBody r with
      | Option.none => Option.none
      | some (k, r1) =>
        match jsonSkipWs r1 with
        | ':' :: r2 =>
          match parseJsonValue pf fuel r2 with
          | Option.none => Option.none
          | some (v, r3) =>
            match jsonSkipWs r3 with
            | ',' :: r4 =>
              (parseJsonObjectItems pf fuel r4).map
                (fun p => ((String.mk k, v) :: p.1, p.2))
            | c :: r4 =>
              if c = Char.ofNat 125 then some ([(String.mk k, v)], r4) else Option.none
            | [] => Option.none
        | _ => Option.none
    | _ => Option.none

end

/-- Modelled from the spec: the external `json.loads` used by `_load_params`
("each parsed as JSON if possible, else kept as literal string").  Standard
JSON over the whole input; `pf` models conversion of a non-integer number
lexeme to a Python float value.  The error is a `JSONDecodeError`. -/
def jsonLoads (pf : String → Value) (s : String) : Except String Value :=
  match parseJsonValue pf (2 * s.length + 2) s.data with
  | Option.none => .error "Expecting value"
  | some (v, r) =>
    match jsonSkipWs r with
    | [] => .ok v
    | _ => .error "Extra data"

/-- Embedding of `_load_params` from `evm_cli.py`: each parameter is appended
JSON-decoded when `json.loads` succeeds and as the literal string when it
raises `JSONDecodeError`. -/
def _load_params (pf : String → Value) (params : List String) : List Value :=
  params.foldl
    (fun parsed value =>
      match jsonLoads pf value with
      | .ok v => parsed ++ [v]
      | .error _ => parsed ++ [Value.str value]) []


/-- ASCII lower-casing on a character code (`str.lower` restricted to ASCII,
which is all that hex addresses contain). -/
def asciiLowerCode (n : Nat) : Nat := if 65 ≤ n ∧ n ≤ 90 then n + 32 else n

/-- ASCII upper-casing on a character code (`str.upper` restricted to ASCII). -/
def asciiUpperCode (n : Nat) : Nat := if 97 ≤ n ∧ n ≤ 122 then n - 32 else n

/-- Hex digit test on a character code (either case). -/
def isHexDigitCode (n : Nat) : Bool :=
  (48 ≤ n && n ≤ 57) || (97 ≤ n && n ≤ 102) || (65 ≤ n && n ≤ 70)

/-- Strip one leading `0x` / `0X` prefix, as address normalisation does. -/
def strip0x (cs : List Char) : List Char :=
  match cs with
  | '0' :: 'x' :: rest => rest
  | '0' :: 'X' :: rest => rest
  | cs => cs

/-- EIP-55 case folding: upper-case the i-th hex character when the i-th
nibble of the hash is at least 8. -/
def checksumFoldCodes : List Nat → List Nat → List Nat
  | [], _ => []
  | c :: cs, [] => c :: cs
  | c :: cs, n :: ns => (if 8 ≤ n then asciiUpperCode c else c) :: checksumFoldCodes cs ns

/-- Modelled from the spec: the external library's address checksumming used
by `EVMClient.get_balance` and `EVMClient.get_transaction_count` ("address
checksumming (a fixed, standard case-folding transformation keyed by address
hash)", EIP-55).  The keccak hash is abstracted as `keccak`, mapping the
character codes of the lower-cased 40-digit hex part to its nibble sequence.
A value that is not a 40-hex-digit string (with optional `0x`/`0X` prefix)
raises an invalid-address error. -/
def to_checksum_address (keccak : List Nat → List Nat) (addr : String) : Except String String :=
  let codes := (strip0x addr.data).map Char.toNat
  if codes.length = 40 && codes.all isHexDigitCode then
    let lower := codes.map asciiLowerCode
    .ok (String.mk ('0' :: 'x' :: (checksumFoldCodes lower (keccak lower)).map Char.ofNat))
  else .error ("when sending a str, it must be a hex string. Got: " ++ addr)

/-- Wei amounts are non-negative unbounded integers. -/
abbrev Wei := Nat

/-- Modelled from the spec: the external library's base-unit conversion used
by `get_balance` ("the decimal ether conversion must equal wei / 10^18
exactly"); the exact decimal value is represented as a rational. -/
def from_wei (wei : Wei) : ℚ := (wei : ℚ) / (10 ^ 18 : ℚ)

/-- Embedding of the `Balance` dataclass from `evm_client/client.py`. -/
structure Balance where
  wei : Wei
  ether : ℚ
deriving DecidableEq, Repr

/-- The JSON-RPC provider world behind one endpoint, as seen through the
external web3 library: the liveness probe outcome, the values the provider
reports, the keccak hash used for checksumming, and the Python runtime's
float conversion for JSON number lexemes. -/
structure Env where
  is_connected : Bool
  eth_chain_id : Int
  eth_block_number : Int
  eth_get_balance : String → String → Wei
  eth_get_transaction_count : String → String → Nat
  request_blocking : String → List Value → Value
  keccak : List Nat → List Nat
  pyFloatOfJson : String → Value

/-- Message of the `RPCConnectionError` raised by `EVMClient.__init__`. -/
def connectionErrorMessage : String :=
  "Unable to connect to the RPC endpoint. Check the URL and network connectivity."

/-- Embedding of `RPCConnectionError` from `evm_client/client.py`. -/
structure RPCConnectionError where
  message : String
deriving DecidableEq, Repr

/-- Embedding of `EVMClient`: it holds the connection handle (here the
provider world it talks to). -/
structure EVMClient where
  env : Env

/-- Embedding of `EVMClient.__init__`: construct the provider handle and
raise `RPCConnectionError` unless the liveness probe succeeds. -/
def EVMClient.construct (env : Env) : Except RPCConnectionError EVMClient :=
  if env.is_connected then .ok ⟨env⟩ else .error ⟨connectionErrorMessage⟩

/-- Embedding of `EVMClient.chain_id`. -/
def EVMClient.chain_id (c : EVMClient) : Int := c.env.eth_chain_id

/-- Embedding of `EVMClient.block_number`. -/
def EVMClient.block_number (c : EVMClient) : Int := c.env.eth_block_number

/-- Embedding of `EVMClient.get_balance`: normalise the address to checksum
form (propagating the invalid-address error), fetch the wei balance at the
block identifier, and pair it with the exact ether conversion. -/
def EVMClient.get_balance (c : EVMClient) (address : String) (block_identifier : String) :
    Except String Balance :=
  match to_checksum_address c.env.keccak address with
  | .error e => .error e
  | .ok checksum =>
    let wei_balance := c.env.eth_get_balance checksum block_identifier
    .ok ⟨wei_balance, from_wei wei_balance⟩

/-- Embedding of `EVMClient.get_transaction_count`: normalise the address to
checksum form and fetch the transaction count at the block identifier. -/
def EVMClient.get_transaction_count (c : EVMClient) (address : String)
    (block_identifier : String) : Except String Nat :=
  match to_checksum_address c.env.keccak address with
  | .error e => .error e
  | .ok checksum => .ok (c.env.eth_get_transaction_count checksum block_identifier)

/-- Embedding of `EVMClient.call_method`: a thin wrapper around the manager's
blocking request. -/
def EVMClient.call_method (c : EVMClient) (method : String) (params : List Value) : Value :=
  c.env.request_blocking method params

/-- Embedding of the parsed `argparse.Namespace` produced by `parse_args`:
endpoint, subcommand name, and the subcommand's arguments (fields not set by
a subcommand are empty). -/
structure Args where
  endpoint : String
  command : String
  address : String
  block_identifier : String
  method : String
  params : List String
deriving DecidableEq, Repr

/-- A token that argparse treats as an option rather than a positional. -/
def isOptionToken (s : String) : Bool :=
  match s.data with
  | '-' :: _ :: _ => true
  | _ => false

/-- Arguments of the `balance` and `tx-count` subparsers: one required
positional `address` and an optional `--block` (also `--block=VALUE`) whose
default is `latest`; a repeated `--block` keeps the last value. -/
def parseAddressArgs : List String → Option String → Option String →
    Except String (String × String)
  | [], Option.none, _ => .error "the following arguments are required: address"
  | [], some a, b => .ok (a, b.getD "latest")
  | t :: ts, a, b =>
    if t = "--block" then
      match ts with
      | [] => .error "argument --block: expected one argument"
      | v :: ts2 => parseAddressArgs ts2 a (some v)
    else if "--block=".data.isPrefixOf t.data then
      parseAddressArgs ts a (some (String.mk (t.data.drop 8)))
    else if isOptionToken t then
      .error ("unrecognized arguments: " ++ t)
    else
      match a with
      | Option.none => parseAddressArgs ts (some t) b
      | some _ => .error ("unrecognized arguments: " ++ t)

/-- Arguments of the `call` subparser: one required positional `method` and
any number of positional `params`. -/
def parseCallArgs : List String → Except String (String × List String)
  | [] => .error "the following arguments are required: method"
  | m :: ps =>
    if isOptionToken m then .error ("unrecognized arguments: " ++ m)
    else if ps.any isOptionToken then .error "unrecognized arguments"
    else .ok (m, ps)

/-- Embedding of `parse_args` from `evm_cli.py`: a required positional
`endpoint`, then a required subcommand among `info`, `balance`, `tx-count`
and `call`, then that subcommand's arguments.  An argparse failure makes the
process exit with a usage error; that is the `Except.error` case.  Option
prefix abbreviations, `-h`/`--help`, `--` separators and negative-number
tokens are not modelled. -/
def parse_args (argv : List String) : Except String Args :=
  match argv with
  | [] => .error "the following arguments are required: endpoint, command"
  | endpoint :: rest =>
    if isOptionToken endpoint then .error ("unrecognized arguments: " ++ endpoint)
    else
      match rest with
      | [] => .error "the following arguments are required: command"
      | cmd :: subargs =>
        if cmd = "info" then
          if subargs = [] then .ok ⟨endpoint, "info", "", "latest", "", []⟩
          else .error "unrecognized arguments"
        else if cmd = "balance" then
          match parseAddressArgs subargs Option.none Option.none with
          | .error e => .error e
          | .ok (a, b) => .ok ⟨endpoint, "balance", a, b, "", []⟩
        else if cmd = "tx-count" then
          match parseAddressArgs subargs Option.none Option.none with
          | .error e => .error e
          | .ok (a, b) => .ok ⟨endpoint, "tx-count", a, b, "", []⟩
        else if cmd = "call" then
          match parseCallArgs subargs with
          | .error e => .error e
          | .ok (m, ps) => .ok ⟨endpoint, "call", "", "latest", m, ps⟩
        else .error ("argument command: invalid choice: " ++ cmd)

/-- JSON string quoting for `json.dumps` output: quote and backslash are
escaped, as are the common control characters (full `\uXXXX` escaping of
other control characters and of non-ASCII text is not modelled; no claim
depends on the rendered text). -/
def jsonQuoteChar (c : Char) : List Char :=
  if c = '"' then ['\\', '"']
  else if c = '\\' then ['\\', '\\']
  else if c = '\n' then ['\\', 'n']
  else if c = '\r' then ['\\', 'r']
  else if c = '\t' then ['\\', 't']
  else [c]

/-- Render a JSON string literal. -/
def jsonQuote (s : String) : String :=
  String.mk ('"' :: (s.data.map jsonQuoteChar).flatten ++ ['"'])

mutual

/-- Modelled from the spec: the external `json.dumps` serialisation used by
`run_cli` ("JSON-serialized ... result").  Serialisable values render as
JSON text; a non-serialisable value (bytes, `AttributeDict`, a duck-typed
object) raises a `TypeError`, the `Except.error` case.  Text layout (the
2-space indent) is not modelled, only serialisability and content. -/
def jsonDumps : Value → Except String String
  | .none => .ok "null"
  | .bool true => .ok "true"
  | .bool false => .ok "false"
  | .int i => .ok (toString i)
  | .float _ j => .ok j
  | .str s => .ok (jsonQuote s)
  | .list items =>
    match jsonDumpsList items with
    | .error e => .error e
    | .ok parts => .ok ("[" ++ String.intercalate ", " parts ++ "]")
  | .tuple items =>
    match jsonDumpsList items with
    | .error e => .error e
    | .ok parts => .ok ("[" ++ String.intercalate ", " parts ++ "]")
  | .dict kvs =>
    match jsonDumpsPairs kvs with
    | .error e => .error e
    | .ok parts => .ok ("\x7b" ++ String.intercalate ", " parts ++ "\x7d")
  | .attrDict _ => .error "Object of type AttributeDict is not JSON serializable"
  | .bytes _ => .error "Object of type bytes is not JSON serializable"
  | .hexable _ => .error "Object is not JSON serializable"
  | .hexraise _ => .error "Object is not JSON serializable"

/-- Serialise list elements. -/
def jsonDumpsList : List Value → Except String (List String)
  | [] => .ok []
  | v :: vs =>
    match jsonDumps v with
    | .error e => .error e
    | .ok s =>
      match jsonDumpsList vs with
      | .error e => .error e
      | .ok ss => .ok (s :: ss)

/-- Serialise object entries. -/
def jsonDumpsPairs : List (String × Value) → Except String (List String)
  | [] => .ok []
  | (k, v) :: rest =>
    match jsonDumps v with
    | .error e => .error e
    | .ok s =>
      match jsonDumpsPairs rest with
      | .error e => .error e
      | .ok ss => .ok ((jsonQuote k ++ ": " ++ s) :: ss)

end

/-- What one CLI invocation produced when `run_cli` returned: its integer
return value (the process exit status) and the lines written to standard
output and standard error. -/
structure Output where
  exitCode : Nat
  stdout : List String
  stderr : List String
deriving DecidableEq, Repr

/-- A CLI invocation that did not return from `run_cli`: an argparse usage
exit, an uncaught exception (invalid address, non-serialisable result, a
propagated normalisation error), or the final `AssertionError`. -/
inductive Failure where
  | usage : String → Failure
  | uncaught : String → Failure
  | assertionError : String → Failure
deriving DecidableEq, Repr

/-- Rendering of the ether decimal for the `balance` output.  Modelled from
the spec ("JSON object \x7bwei: string, ether: string\x7d"); the exact text
of Python `Decimal.__str__` is not modelled, only that it is a string
determined by the exact value. -/
def etherStr (q : ℚ) : String := toString q

/-- Embedding of `run_cli` from `evm_cli.py`: parse the arguments, construct
the client (on `RPCConnectionError` print `Connection failed: <detail>` to
standard error and return 1), then dispatch on the subcommand, printing to
standard output and returning 0; an unknown command would raise
`AssertionError`. -/
def run_cli (env : Env) (argv : List String) : Except Failure Output :=
  match parse_args argv with
  | .error e => .error (.usage e)
  | .ok args =>
    match EVMClient.construct env with
    | .error exc => .ok ⟨1, [], ["Connection failed: " ++ exc.message]⟩
    | .ok client =>
      if args.command = "info" then
        match jsonDumps (.dict [("chain_id", .int client.chain_id),
                                ("block_number", .int client.block_number)]) with
        | .error e => .error (.uncaught e)
        | .ok s => .ok ⟨0, [s], []⟩
      else if args.command = "balance" then
        match client.get_balance args.address args.block_identifier with
        | .error e => .error (.uncaught e)
        | .ok balance =>
          match jsonDumps (.dict [("wei", .str (toString balance.wei)),
                                  ("ether", .str (etherStr balance.ether))]) with
          | .error e => .error (.uncaught e)
          | .ok s => .ok ⟨0, [s], []⟩
      else if args.command = "tx-count" then
        match client.get_transaction_count args.address args.block_identifier with
        | .error e => .error (.uncaught e)
        | .ok count => .ok ⟨0, [toString count], []⟩
      else if args.command = "call" then
        let params := _load_params env.pyFloatOfJson args.params
        let result := client.call_method args.method params
        match _normalise result with
        | .error e =>
          .error (.uncaught (match e with
            | .typeError => "TypeError"
            | .otherError m => m))
        | .ok r =>
          match jsonDumps r with
          | .error e => .error (.uncaught e)
          | .ok s => .ok ⟨0, [s], []⟩
      else .error (.assertionError ("Unknown command: " ++ args.command))

/-- Does a run result consist of the `AssertionError` raise at the end of
`run_cli`? -/
def isAssertionFailure : Except Failure Output → Bool
  | .error (.assertionError _) => true
  | _ => false

/-- Does a character list begin with the two characters `0x`? -/
def startsWith0x (l : List Char) : Bool :=
  match l with
  | c1 :: c2 :: _ => c1 = '0' && c2 = 'x'
  | _ => false

lemma hexDigitChar_lowerHex (n : Nat) (h : n < 16) :
    isLowerHexChar (hexDigitChar n) = true := by
  interval_cases n <;> decide

lemma hexCharVal_hexDigitChar (n : Nat) (h : n < 16) :
    hexCharVal (hexDigitChar n) = some n := by
  interval_cases n <;> decide

lemma lowerHex_ne_x (c : Char) (h : isLowerHexChar c = true) : ¬ c = 'x' := by
  intro he
  subst he
  simp [isLowerHexChar] at h

lemma bytesHex_data (bs : List Nat) :
    (bytesHex bs).data = (bs.map byteHexChars).flatten := rfl

lemma bytesHex_cons (b : Nat) (rest : List Nat) :
    (bytesHex (b :: rest)).data
      = hexDigitChar (b / 16) :: hexDigitChar (b % 16) :: (bytesHex rest).data := by
  simp [bytesHex_data, byteHexChars]

lemma bytesHex_length (bs : List Nat) : (bytesHex bs).length = 2 * bs.length := by
  induction bs with
  | nil => rfl
  | cons b rest ih =>
    have : (bytesHex (b :: rest)).length = (bytesHex (b :: rest)).data.length := rfl
    rw [this, bytesHex_cons]
    have h2 : (bytesHex rest).length = (bytesHex rest).data.length := rfl
    simp [List.length_cons]
    omega

lemma bytesHex_all_lower (bs : List Nat) (h : ∀ b ∈ bs, b < 256) :
    (bytesHex bs).data.all isLowerHexChar = true := by
  induction bs with
  | nil => rfl
  | cons b rest ih =>
    have hb : b < 256 := h b (List.mem_cons_self b rest)
    rw [bytesHex_cons]
    simp only [List.all_cons, Bool.and_eq_true]
    exact ⟨hexDigitChar_lowerHex (b / 16) (by omega),
      hexDigitChar_lowerHex (b % 16) (by omega),
      ih (fun x hx => h x (List.mem_cons_of_mem b hx))⟩

lemma decodeHex_bytesHex (bs : List Nat) (h : ∀ b ∈ bs, b < 256) :
    decodeHexChars (bytesHex bs).data = some bs := by
  induction bs with
  | nil => rfl
  | cons b rest ih =>
    have hb : b < 256 := h b (List.mem_cons_self b rest)
    rw [bytesHex_cons, decodeHexChars]
    rw [hexCharVal_hexDigitChar (b / 16) (by omega),
        hexCharVal_hexDigitChar (b % 16) (by omega),
        ih (fun x hx => h x (List.mem_cons_of_mem b hx))]
    have : 16 * (b / 16) + b % 16 = b := by omega
    simp [this]

lemma bytesHex_not0x (bs : List Nat) (h : ∀ b ∈ bs, b < 256) :
    startsWith0x (bytesHex bs).data = false := by
  cases bs with
  | nil => rfl
  | cons b rest =>
    have hb : b < 256 := h b (List.mem_cons_self b rest)
    rw [bytesHex_cons, startsWith0x]
    have hx := lowerHex_ne_x (hexDigitChar (b % 16)) (hexDigitChar_lowerHex (b % 16) (by omega))
    simp [hx]

lemma normList_spec (items : List Value) :
    ∀ items', normList items = .ok items' →
      items'.length = items.length ∧
      ∀ p ∈ items.zip items', _normalise p.1 = .ok p.2 := by
  induction items with
  | nil =>
    intro items' h
    rw [normList] at h
    cases h
    exact ⟨rfl, by intro p hp; cases hp⟩
  | cons v vs ih =>
    intro items' h
    rw [normList] at h
    cases hv : _normalise v with
    | error e => rw [hv] at h; cases h
    | ok w =>
      rw [hv] at h
      cases hvs : normList vs with
      | error e => rw [hvs] at h; cases h
      | ok ws =>
        rw [hvs] at h
        cases h
        obtain ⟨hlen, hzip⟩ := ih ws hvs
        refine ⟨by simp [hlen], ?_⟩
        intro p hp
        rw [List.zip_cons_cons] at hp
        cases hp with
        | head => exact hv
        | tail _ hmem => exact hzip p hmem

lemma normPairs_spec (kvs : List (String × Value)) :
    ∀ kvs', normPairs kvs = .ok kvs' →
      kvs'.map Prod.fst = kvs.map Prod.fst ∧
      kvs'.length = kvs.length ∧
      ∀ p ∈ kvs.zip kvs', _normalise p.1.2 = .ok p.2.2 := by
  induction kvs with
  | nil =>
    intro kvs' h
    rw [normPairs] at h
    cases h
    exact ⟨rfl, rfl, by intro p hp; cases hp⟩
  | cons kv rest ih =>
    intro kvs' h
    obtain ⟨k, v⟩ := kv
    rw [normPairs] at h
    cases hv : _normalise v with
    | error e => rw [hv] at h; cases h
    | ok w =>
      rw [hv] at h
      cases hrest : normPairs rest with
      | error e => rw [hrest] at h; cases h
      | ok ws =>
        rw [hrest] at h
        cases h
        obtain ⟨hkeys, hlen, hzip⟩ := ih ws hrest
        refine ⟨by simp [hkeys], by simp [hlen], ?_⟩
        intro p hp
        rw [List.zip_cons_cons] at hp
        cases hp with
        | head => exact hv
        | tail _ hmem => exact hzip p hmem

mutual

/-- No duck-typed hex-capable object (`hexable`/`hexraise`) occurs anywhere
in the value.  On this fragment normalisation is idempotent; a hex-capable
object whose conversion yields a value that is not a fixed point of
`_normalise` (for example one returning `bytes`) can break idempotence. -/
def hexFree : Value → Bool
  | .hexable _ => false
  | .hexraise _ => false
  | .list items => hexFreeList items
  | .tuple items => hexFreeList items
  | .attrDict kvs => hexFreePairs kvs
  | .dict kvs => hexFreePairs kvs
  | _ => true

/-- `hexFree` on every element. -/
def hexFreeList : List Value → Bool
  | [] => true
  | v :: vs => hexFree v && hexFreeList vs

/-- `hexFree` on every entry value. -/
def hexFreePairs : List (String × Value) → Bool
  | [] => true
  | (_, v) :: rest => hexFree v && hexFreePairs rest

end

mutual

/-- On hex-free values `_normalise` succeeds and its result is a fixed point
of `_normalise`. -/
def normFixAux : (v : Value) → hexFree v = true →
    ∃ w, _normalise v = .ok w ∧ _normalise w = .ok w
  | .none, _ => ⟨.none, rfl, rfl⟩
  | .bool b, _ => ⟨.bool b, rfl, rfl⟩
  | .int i, _ => ⟨.int i, rfl, rfl⟩
  | .str s, _ => ⟨.str s, rfl, rfl⟩
  | .float h j, _ => ⟨.str h, rfl, rfl⟩
  | .bytes bs, _ => ⟨.str (bytesHex bs), rfl, rfl⟩
  | .dict kvs, _ => ⟨.dict kvs, rfl, rfl⟩
  | .attrDict kvs, h =>
    match normFixPairsAux kvs h with
    | ⟨ws, h1, _⟩ =>
      ⟨.dict ws, by rw [_normalise, h1]; rfl, rfl⟩
  | .list items, h =>
    match normFixListAux items h with
    | ⟨ws, h1, h2⟩ =>
      ⟨.list ws, by rw [_normalise, h1]; rfl, by rw [_normalise, h2]; rfl⟩
  | .tuple items, h =>
    match normFixListAux items h with
    | ⟨ws, h1, h2⟩ =>
      ⟨.tuple ws, by rw [_normalise, h1]; rfl, by rw [_normalise, h2]; rfl⟩

/-- Elementwise version of `normFixAux`. -/
def normFixListAux : (vs : List Value) → hexFreeList vs = true →
    ∃ ws, normList vs = .ok ws ∧ normList ws = .ok ws
  | [], _ => ⟨[], rfl, rfl⟩
  | v :: vs, h =>
    have hv : hexFree v = true := by
      rw [hexFreeList, Bool.and_eq_true] at h; exact h.1
    have hvs : hexFreeList vs = true := by
      rw [hexFreeList, Bool.and_eq_true] at h; exact h.2
    match normFixAux v hv, normFixListAux vs hvs with
    | ⟨w, hw1, hw2⟩, ⟨ws, hws1, hws2⟩ =>
      ⟨w :: ws, by rw [normList, hw1, hws1], by rw [normList, hw2, hws2]⟩

/-- Entrywise version of `normFixAux`. -/
def normFixPairsAux : (kvs : List (String × Value)) → hexFreePairs kvs = true →
    ∃ ws, normPairs kvs = .ok ws ∧ normPairs ws = .ok ws
  | [], _ => ⟨[], rfl, rfl⟩
  | (k, v) :: rest, h =>
    have hv : hexFree v = true := by
      rw [hexFreePairs, Bool.and_eq_true] at h; exact h.1
    have hrest : hexFreePairs rest = true := by
      rw [hexFreePairs, Bool.and_eq_true] at h; exact h.2
    match normFixAux v hv, normFixPairsAux rest hrest with
    | ⟨w, hw1, hw2⟩, ⟨ws, hws1, hws2⟩ =>
      ⟨(k, w) :: ws, by rw [normPairs, hw1, hws1], by rw [normPairs, hw2, hws2]⟩

end

/-- Lower-case hex digit test on a character code. -/
def isLowerHexCode (n : Nat) : Bool := (48 ≤ n && n ≤ 57) || (97 ≤ n && n ≤ 102)

lemma toNat_ofNat_valid (n : Nat) (h : n < 55296) : (Char.ofNat n).toNat = n := by
  have hv : n.isValidChar := Or.inl h
  rw [Char.ofNat, dif_pos hv]
  rfl

lemma asciiLowerCode_hex (n : Nat) (h : isHexDigitCode n = true) :
    isLowerHexCode (asciiLowerCode n) = true := by
  simp only [isHexDigitCode, Bool.or_eq_true, Bool.and_eq_true, decide_eq_true_eq] at h
  simp only [isLowerHexCode, asciiLowerCode, Bool.or_eq_true, Bool.and_eq_true,
    decide_eq_true_eq]
  split <;> omega

lemma asciiLowerCode_fix (n : Nat) (h : isLowerHexCode n = true) :
    asciiLowerCode n = n := by
  simp only [isLowerHexCode, Bool.or_eq_true, Bool.and_eq_true, decide_eq_true_eq] at h
  simp only [asciiLowerCode]
  split <;> omega

lemma asciiLowerCode_asciiUpperCode (n : Nat) (h : isLowerHexCode n = true) :
    asciiLowerCode (asciiUpperCode n) = n := by
  simp only [isLowerHexCode, Bool.or_eq_true, Bool.and_eq_true, decide_eq_true_eq] at h
  simp only [asciiUpperCode, asciiLowerCode]
  split <;> split <;> omega

lemma asciiUpperCode_hex (n : Nat) (h : isLowerHexCode n = true) :
    isHexDigitCode (asciiUpperCode n) = true := by
  simp only [isLowerHexCode, Bool.or_eq_true, Bool.and_eq_true, decide_eq_true_eq] at h
  simp only [isHexDigitCode, asciiUpperCode, Bool.or_eq_true, Bool.and_eq_true,
    decide_eq_true_eq]
  split <;> omega

lemma lowerHexCode_isHex (n : Nat) (h : isLowerHexCode n = true) :
    isHexDigitCode n = true := by
  simp only [isLowerHexCode, Bool.or_eq_true, Bool.and_eq_true, decide_eq_true_eq] at h
  simp only [isHexDigitCode, Bool.or_eq_true, Bool.and_eq_true, decide_eq_true_eq]
  omega

lemma hexCode_lt (n : Nat) (h : isHexDigitCode n = true) : n < 55296 := by
  simp only [isHexDigitCode, Bool.or_eq_true, Bool.and_eq_true, decide_eq_true_eq] at h
  omega

lemma checksumFold_spec (cs : List Nat) :
    ∀ ns, cs.all isLowerHexCode = true →
      (checksumFoldCodes cs ns).length = cs.length ∧
      (checksumFoldCodes cs ns).map asciiLowerCode = cs ∧
      (checksumFoldCodes cs ns).all isHexDigitCode = true := by
  induction cs with
  | nil => intro ns _; exact ⟨by cases ns <;> rfl, by cases ns <;> rfl, by cases ns <;> rfl⟩
  | cons c cs ih =>
    intro ns h
    rw [List.all_cons, Bool.and_eq_true] at h
    obtain ⟨hc, hcs⟩ := h
    cases ns with
    | nil =>
      rw [checksumFoldCodes]
      have hmap : (c :: cs).map asciiLowerCode = c :: cs := by
        rw [List.map_cons, asciiLowerCode_fix c hc]
        have : ∀ x ∈ cs, asciiLowerCode x = x := by
          intro x hx
          exact asciiLowerCode_fix x (by
            rw [List.all_eq_true] at hcs
            exact hcs x hx)
        rw [List.map_congr_left (fun x hx => this x hx)]
        simp
      have hall : (c :: cs).all isHexDigitCode = true := by
        rw [List.all_cons, Bool.and_eq_true]
        refine ⟨lowerHexCode_isHex c hc, ?_⟩
        rw [List.all_eq_true] at hcs ⊢
        exact fun x hx => lowerHexCode_isHex x (hcs x hx)
      exact ⟨rfl, hmap, hall⟩
    | cons n ns =>
      rw [checksumFoldCodes]
      obtain ⟨hlen, hmap, hall⟩ := ih ns hcs
      refine ⟨by simp [hlen], ?_, ?_⟩
      · rw [List.map_cons, hmap]
        congr 1
        split
        · exact asciiLowerCode_asciiUpperCode c hc
        · exact asciiLowerCode_fix c hc
      · rw [List.all_cons, Bool.and_eq_true]
        refine ⟨?_, hall⟩
        split
        · exact asciiUpperCode_hex c hc
        · exact lowerHexCode_isHex c hc

lemma map_toNat_ofNat (l : List Nat) (h : ∀ x ∈ l, x < 55296) :
    (l.map Char.ofNat).map Char.toNat = l := by
  rw [List.map_map]
  have : ∀ x ∈ l, (Char.toNat ∘ Char.ofNat) x = id x := by
    intro x hx
    exact toNat_ofNat_valid x (h x hx)
  rw [List.map_congr_left this, List.map_id]

lemma all_lower_of_map (codes : List Nat) (h : codes.all isHexDigitCode = true) :
    (codes.map asciiLowerCode).all isLowerHexCode = true := by
  rw [List.all_eq_true] at h ⊢
  intro x hx
  rw [List.mem_map] at hx
  obtain ⟨y, hy, rfl⟩ := hx
  exact asciiLowerCode_hex y (h y hy)

lemma to_checksum_address_idem (keccak : List Nat → List Nat) (addr cs : String)
    (h : to_checksum_address keccak addr = .ok cs) :
    to_checksum_address keccak cs = .ok cs := by
  simp only [to_checksum_address] at h
  split at h
  case isFalse => cases h
  case isTrue hcond =>
    rw [Bool.and_eq_true, decide_eq_true_eq] at hcond
    obtain ⟨hlen, hhex⟩ := hcond
    set codes := (strip0x addr.data).map Char.toNat with hcodes
    set lower := codes.map asciiLowerCode with hlower
    have hlowall : lower.all isLowerHexCode = true := all_lower_of_map codes hhex
    obtain ⟨hflen, hfmap, hfhex⟩ := checksumFold_spec lower (keccak lower) hlowall
    set folded := checksumFoldCodes lower (keccak lower) with hfolded
    have hcseq : cs = String.mk ('0' :: 'x' :: folded.map Char.ofNat) := by
      cases h; rfl
    subst hcseq
    have hdata : (String.mk ('0' :: 'x' :: folded.map Char.ofNat)).data
        = '0' :: 'x' :: folded.map Char.ofNat := rfl
    have hstrip : strip0x ('0' :: 'x' :: folded.map Char.ofNat) = folded.map Char.ofNat := rfl
    have hround : (folded.map Char.ofNat).map Char.toNat = folded := by
      apply map_toNat_ofNat
      intro x hx
      apply hexCode_lt
      rw [List.all_eq_true] at hfhex
      exact hfhex x hx
    have hflen40 : folded.length = 40 := by
      rw [hflen, hlower, List.length_map, hlen]
    have hlow2 : folded.map asciiLowerCode = lower := hfmap
    simp only [to_checksum_address, hdata, hstrip, hround]
    rw [if_pos (by rw [hflen40, hfhex]; simp)]
    rw [hlow2]

/-- The decode-or-keep mapping that `_load_params` applies to one parameter. -/
def loadOneParam (pf : String → Value) (s : String) : Value :=
  match jsonLoads pf s with
  | .ok v => v
  | .error _ => Value.str s

lemma _load_params_foldl (pf : String → Value) (params : List String) :
    ∀ acc : List Value,
      params.foldl
        (fun parsed value =>
          match jsonLoads pf value with
          | .ok v => parsed ++ [v]
          | .error _ => parsed ++ [Value.str value]) acc
      = acc ++ params.map (loadOneParam pf) := by
  induction params with
  | nil => intro acc; simp
  | cons s rest ih =>
    intro acc
    rw [List.foldl_cons, List.map_cons, ih]
    cases h : jsonLoads pf s <;> simp [loadOneParam, h]

lemma _load_params_eq_map (pf : String → Value) (params : List String) :
    _load_params pf params = params.map (loadOneParam pf) := by
  rw [_load_params, _load_params_foldl]
  simp

lemma parse_args_command (argv : List String) (args : Args)
    (h : parse_args argv = .ok args) :
    args.command = "info" ∨ args.command = "balance" ∨
    args.command = "tx-count" ∨ args.command = "call" := by
  cases argv with
  | nil => cases h
  | cons endpoint rest =>
    rw [parse_args.eq_def] at h
    dsimp only at h
    split at h
    · cases h
    · cases rest with
      | nil => cases h
      | cons cmd subargs =>
        dsimp only at h
        split at h
        · split at h
          · cases h; exact Or.inl rfl
          · cases h
        · split at h
          · split at h
            · cases h
            · cases h; exact Or.inr (Or.inl rfl)
          · split at h
            · split at h
              · cases h
              · cases h; exact Or.inr (Or.inr (Or.inl rfl))
            · split at h
              · split at h
                · cases h
                · cases h; exact Or.inr (Or.inr (Or.inr rfl))
              · cases h

lemma run_cli_conn_failed (env : Env) (argv : List String) (args : Args)
    (hconn : env.is_connected = false) (hp : parse_args argv = .ok args) :
    run_cli env argv
      = .ok ⟨1, [], ["Connection failed: " ++ connectionErrorMessage]⟩ := by
  rw [run_cli, hp, EVMClient.construct, if_neg (by rw [hconn]; exact Bool.false_ne_true)]

lemma run_cli_ok_exit_zero (env : Env) (argv : List String) (out : Output)
    (hconn : env.is_connected = true) (h : run_cli env argv = .ok out) :
    out.exitCode = 0 := by
  rw [run_cli] at h
  cases hp : parse_args argv with
  | error e => rw [hp] at h; cases h
  | ok args =>
    rw [hp] at h
    rw [EVMClient.construct, if_pos hconn] at h
    dsimp only at h
    by_cases h1 : args.command = "info"
    · rw [if_pos h1] at h
      cases hd : jsonDumps (.dict [("chain_id", .int (EVMClient.chain_id ⟨env⟩)),
          ("block_number", .int (EVMClient.block_number ⟨env⟩))]) with
      | error e => rw [hd] at h; cases h
      | ok s => rw [hd] at h; cases h; rfl
    · rw [if_neg h1] at h
      by_cases h2 : args.command = "balance"
      · rw [if_pos h2] at h
        cases hb : EVMClient.get_balance ⟨env⟩ args.address args.block_identifier with
        | error e => rw [hb] at h; cases h
        | ok balance =>
          rw [hb] at h
          dsimp only at h
          cases hd : jsonDumps (.dict [("wei", .str (toString balance.wei)),
              ("ether", .str (etherStr balance.ether))]) with
          | error e => rw [hd] at h; cases h
          | ok s => rw [hd] at h; cases h; rfl
      · rw [if_neg h2] at h
        by_cases h3 : args.command = "tx-count"
        · rw [if_pos h3] at h
          cases hc : EVMClient.get_transaction_count ⟨env⟩ args.address args.block_identifier with
          | error e => rw [hc] at h; cases h
          | ok count => rw [hc] at h; cases h; rfl
        · rw [if_neg h3] at h
          by_cases h4 : args.command = "call"
          · rw [if_pos h4] at h
            cases hn : _normalise (EVMClient.call_method ⟨env⟩ args.method
                (_load_params env.pyFloatOfJson args.params)) with
            | error e => rw [hn] at h; cases h
            | ok r =>
              rw [hn] at h
              dsimp only at h
              cases hd : jsonDumps r with
              | error e => rw [hd] at h; cases h
              | ok s => rw [hd] at h; cases h; rfl
          · rw [if_neg h4] at h
            cases h

lemma run_cli_no_assertion (env : Env) (argv : List String) :
    isAssertionFailure (run_cli env argv) = false := by
  rw [run_cli]
  cases hp : parse_args argv with
  | error e => rfl
  | ok args =>
    have hcmd := parse_args_command argv args hp
    cases hc : EVMClient.construct env with
    | error ex => rfl
    | ok client =>
      dsimp only
      by_cases h1 : args.command = "info"
      · rw [if_pos h1]
        cases jsonDumps (.dict [("chain_id", .int client.chain_id),
            ("block_number", .int client.block_number)]) <;> rfl
      · rw [if_neg h1]
        by_cases h2 : args.command = "balance"
        · rw [if_pos h2]
          cases EVMClient.get_balance client args.address args.block_identifier with
          | error e => rfl
          | ok balance =>
            cases jsonDumps (.dict [("wei", .str (toString balance.wei)),
                ("ether", .str (etherStr balance.ether))]) <;> rfl
        · rw [if_neg h2]
          by_cases h3 : args.command = "tx-count"
          · rw [if_pos h3]
            cases EVMClient.get_transaction_count client args.address args.block_identifier <;> rfl
          · rw [if_neg h3]
            by_cases h4 : args.command = "call"
            · rw [if_pos h4]
              cases _normalise (EVMClient.call_method client args.method
                  (_load_params env.pyFloatOfJson args.params)) with
              | error e => cases e <;> rfl
              | ok r =>
                dsimp only
                cases jsonDumps r <;> rfl
            · rcases hcmd with hc | hc | hc | hc
              · exact absurd hc h1
              · exact absurd hc h2
              · exact absurd hc h3
              · exact absurd hc h4

lemma normList_map (items : List Value) :
    ∀ items', normList items = .ok items' →
      items.map _normalise = items'.map Except.ok := by
  induction items with
  | nil =>
    intro items' h
    rw [normList] at h
    cases h
    rfl
  | cons v vs ih =>
    intro items' h
    rw [normList] at h
    cases hv : _normalise v with
    | error e => rw [hv] at h; cases h
    | ok w =>
      rw [hv] at h
      cases hvs : normList vs with
      | error e => rw [hvs] at h; cases h
      | ok ws =>
        rw [hvs] at h
        cases h
        rw [List.map_cons, List.map_cons, hv, ih ws hvs]

lemma normPairs_map (kvs : List (String × Value)) :
    ∀ kvs', normPairs kvs = .ok kvs' →
      kvs.map (fun p => _normalise p.2) = kvs'.map (fun p => Except.ok p.2) := by
  induction kvs with
  | nil =>
    intro kvs' h
    rw [normPairs] at h
    cases h
    rfl
  | cons kv rest ih =>
    intro kvs' h
    obtain ⟨k, v⟩ := kv
    rw [normPairs] at h
    cases hv : _normalise v with
    | error e => rw [hv] at h; cases h
    | ok w =>
      rw [hv] at h
      cases hrest : normPairs rest with
      | error e => rw [hrest] at h; cases h
      | ok ws =>
        rw [hrest] at h
        cases h
        rw [List.map_cons, List.map_cons, ih ws hrest]
        rw [hv]

/-- A sample provider world with the liveness probe succeeding, used to
instantiate the universally quantified theorems at concrete inputs. -/
def sampleEnvUp : Env :=
  ⟨true, 1, 7, fun _ _ => 1500000000000000000, fun _ _ => 5,
   fun _ _ => Value.none, fun _ => List.replicate 40 7, fun s => Value.float s s⟩

/-- The same provider world with the liveness probe failing. -/
def sampleEnvDown : Env :=
  ⟨false, 1, 7, fun _ _ => 1500000000000000000, fun _ _ => 5,
   fun _ _ => Value.none, fun _ => List.replicate 40 7, fun s => Value.float s s⟩

/-- A sample mixed-case valid address. -/
def sampleAddress : String := "0xAB5801a7D398351b8bE11C439e05C5B3259aeC9B"

/-- Does the run result, when `run_cli` returned, carry exit status 0?
(Vacuously satisfied by a propagated failure.) -/
def okImpliesExitZero : Except Failure Output → Prop := fun r =>
  match r with
  | .ok out => out.exitCode = 0
  | .error _ => True

/-- C1 (counterexample): normalisation is not idempotent on every value.  For
a duck-typed object whose callable `hex` attribute returns the byte string
`b"\xab"`, the first pass returns the bytes unchanged while the second pass
hex-encodes them, so `_normalise (_normalise v)` differs from
`_normalise v`. -/
theorem c1_normalise_not_idempotent :
    (_normalise (Value.hexable (Value.bytes [171]))).bind _normalise
      ≠ _normalise (Value.hexable (Value.bytes [171])) := by
  intro h
  have h1 : (_normalise (Value.hexable (Value.bytes [171]))).bind _normalise
      = .ok (.str (bytesHex [171])) := rfl
  have h2 : _normalise (Value.hexable (Value.bytes [171])) = .ok (.bytes [171]) := rfl
  rw [h1, h2] at h
  injection h with h3
  exact Value.noConfusion h3

/-- C1 (amended): normalisation is idempotent on every value that contains no
duck-typed hex-capable object: on such values `_normalise` succeeds and its
result is a fixed point of `_normalise`. -/
theorem c1_normalise_idempotent_of_hexFree (v : Value) (h : hexFree v = true) :
    ∃ w, _normalise v = .ok w ∧ _normalise w = .ok w :=
  normFixAux v h

/-- Witness for C1 at a concrete hex-free value. -/
theorem c1_normalise_idempotent_of_hexFree_witness :
    hexFree (Value.attrDict [("a", Value.bytes [255]), ("b", Value.list [Value.int 3])])
        = true ∧
    ∃ w, _normalise (Value.attrDict [("a", Value.bytes [255]),
          ("b", Value.list [Value.int 3])]) = .ok w ∧
        _normalise w = .ok w :=
  ⟨rfl, c1_normalise_idempotent_of_hexFree _ rfl⟩

/-- C2 (counterexample): a failure of the duck-typed hex conversion is not
silently ignored for every kind of raised exception: when `hex()` raises a
`ValueError`, `_normalise` propagates it instead of returning the value
unchanged. -/
theorem c2_non_typeerror_not_swallowed :
    _normalise (Value.hexraise (PyErr.otherError "ValueError"))
      ≠ .ok (Value.hexraise (PyErr.otherError "ValueError")) := by
  intro h
  have h1 : _normalise (Value.hexraise (PyErr.otherError "ValueError"))
      = .error (PyErr.otherError "ValueError") := rfl
  rw [h1] at h
  cases h

/-- C2 (amended): a raised hex-conversion failure is silently ignored (the
original value is returned unchanged) exactly when the exception is a
`TypeError`; every other exception propagates out of `_normalise`. -/
theorem c2_only_typeerror_swallowed :
    _normalise (Value.hexraise PyErr.typeError) = .ok (Value.hexraise PyErr.typeError) ∧
    ∀ m, _normalise (Value.hexraise (PyErr.otherError m)) = .error (PyErr.otherError m) :=
  ⟨rfl, fun _ => rfl⟩

/-- C3: normalising a byte sequence returns exactly its lowercase hexadecimal
string representation: every character is a lowercase hex digit, there are
two digits per byte, decoding the string recovers the bytes, and no `0x`
prefix is present. -/
theorem c3_bytes_render_lower_hex (bs : List Nat) (h : ∀ b ∈ bs, b < 256) :
    _normalise (Value.bytes bs) = .ok (Value.str (bytesHex bs)) ∧
    (bytesHex bs).data.all isLowerHexChar = true ∧
    (bytesHex bs).length = 2 * bs.length ∧
    decodeHexChars (bytesHex bs).data = some bs ∧
    startsWith0x (bytesHex bs).data = false :=
  ⟨rfl, bytesHex_all_lower bs h, bytesHex_length bs, decodeHex_bytesHex bs h,
   bytesHex_not0x bs h⟩

/-- Witness for C3 at a concrete byte string. -/
theorem c3_bytes_render_lower_hex_witness :
    (∀ b ∈ [171, 0, 255], b < 256) ∧
    (_normalise (Value.bytes [171, 0, 255]) = .ok (Value.str (bytesHex [171, 0, 255])) ∧
     (bytesHex [171, 0, 255]).data.all isLowerHexChar = true ∧
     (bytesHex [171, 0, 255]).length = 2 * ([171, 0, 255] : List Nat).length ∧
     decodeHexChars (bytesHex [171, 0, 255]).data = some [171, 0, 255] ∧
     startsWith0x (bytesHex [171, 0, 255]).data = false) :=
  ⟨by decide, c3_bytes_render_lower_hex [171, 0, 255] (by decide)⟩

/-- C4: `call` parameter decoding maps each parameter string to its JSON
decoding when it is valid JSON and to the unchanged literal string otherwise;
in particular `42` decodes to the JSON integer 42 while `latest` is not valid
JSON and passes through as the literal string. -/
theorem c4_load_params_json_or_literal (pf : String → Value) (params : List String) :
    _load_params pf params = params.map (loadOneParam pf) ∧
    (∀ s, jsonLoads pf s = .ok (loadOneParam pf s) ∨
          ((jsonLoads pf s).isOk = false ∧ loadOneParam pf s = Value.str s)) ∧
    jsonLoads pf "42" = .ok (Value.int 42) ∧
    jsonLoads pf "latest" = .error "Expecting value" ∧
    _load_params pf ["42", "latest"] = [Value.int 42, Value.str "latest"] := by
  refine ⟨_load_params_eq_map pf params, ?_, rfl, rfl, ?_⟩
  · intro s
    cases hj : jsonLoads pf s with
    | ok v => exact Or.inl (by rw [loadOneParam, hj])
    | error e => exact Or.inr ⟨rfl, by rw [loadOneParam, hj]⟩
  · rw [_load_params_eq_map]
    rfl

/-- C5: with a parseable command line, an unreachable endpoint makes client
construction raise `RPCConnectionError`, and the CLI returns exit status 1
with `Connection failed: <detail>` on standard error and nothing on standard
output; when the connection is established, every `run_cli` call that returns
does so with exit status 0. -/
theorem c5_connection_error_and_exit_codes (env : Env) (argv : List String) (args : Args)
    (hp : parse_args argv = .ok args) :
    (env.is_connected = false →
      EVMClient.construct env = .error ⟨connectionErrorMessage⟩ ∧
      run_cli env argv
        = .ok ⟨1, [], ["Connection failed: " ++ connectionErrorMessage]⟩ ∧
      "Connection failed: ".data.isPrefixOf
          ("Connection failed: " ++ connectionErrorMessage).data = true) ∧
    (env.is_connected = true → okImpliesExitZero (run_cli env argv)) := by
  constructor
  · intro hdown
    refine ⟨?_, run_cli_conn_failed env argv args hdown hp, by decide⟩
    rw [EVMClient.construct, if_neg (by rw [hdown]; exact Bool.false_ne_true)]
  · intro hup
    cases hr : run_cli env argv with
    | error f => exact trivial
    | ok out => exact run_cli_ok_exit_zero env argv out hup hr

/-- Witness for C5: a concrete unreachable world and a concrete reachable
world, on the command line `<endpoint> info`. -/
theorem c5_connection_error_and_exit_codes_witness :
    (parse_args ["http://localhost:8545", "info"]
        = .ok ⟨"http://localhost:8545", "info", "", "latest", "", []⟩) ∧
    (EVMClient.construct sampleEnvDown = .error ⟨connectionErrorMessage⟩ ∧
     run_cli sampleEnvDown ["http://localhost:8545", "info"]
        = .ok ⟨1, [], ["Connection failed: " ++ connectionErrorMessage]⟩ ∧
     "Connection failed: ".data.isPrefixOf
          ("Connection failed: " ++ connectionErrorMessage).data = true) ∧
    okImpliesExitZero (run_cli sampleEnvUp ["http://localhost:8545", "info"]) :=
  ⟨rfl,
   (c5_connection_error_and_exit_codes sampleEnvDown ["http://localhost:8545", "info"]
      ⟨"http://localhost:8545", "info", "", "latest", "", []⟩ rfl).1 rfl,
   (c5_connection_error_and_exit_codes sampleEnvUp ["http://localhost:8545", "info"]
      ⟨"http://localhost:8545", "info", "", "latest", "", []⟩ rfl).2 rfl⟩

/-- C6: for every wei amount returned by a successful balance query, the
ether field is exactly wei / 10^18, and multiplying the ether value by 10^18
recovers the wei amount exactly. -/
theorem c6_ether_conversion_exact (c : EVMClient) (address block : String) (bal : Balance)
    (h : c.get_balance address block = .ok bal) :
    bal.ether = (bal.wei : ℚ) / 10 ^ 18 ∧ bal.ether * 10 ^ 18 = (bal.wei : ℚ) := by
  rw [EVMClient.get_balance] at h
  cases hc : to_checksum_address c.env.keccak address with
  | error e => rw [hc] at h; cases h
  | ok checksum =>
    rw [hc] at h
    dsimp only at h
    cases h
    refine ⟨rfl, ?_⟩
    rw [from_wei]
    rw [div_mul_cancel₀]
    norm_num

/-- Witness for C6 at a concrete provider world and address. -/
theorem c6_ether_conversion_exact_witness :
    EVMClient.get_balance ⟨sampleEnvUp⟩ sampleAddress "latest"
        = .ok ⟨1500000000000000000, from_wei 1500000000000000000⟩ ∧
    (from_wei 1500000000000000000 = ((1500000000000000000 : Wei) : ℚ) / 10 ^ 18 ∧
     from_wei 1500000000000000000 * 10 ^ 18 = ((1500000000000000000 : Wei) : ℚ)) :=
  ⟨rfl, c6_ether_conversion_exact ⟨sampleEnvUp⟩ sampleAddress "latest"
      ⟨1500000000000000000, from_wei 1500000000000000000⟩ rfl⟩

/-- C7: for a valid address in any casing, the balance query and the
transaction-count query both dispatch the RPC call with the same checksummed
form of the address, and checksum normalisation is idempotent: the
checksummed form is its own checksum. -/
theorem c7_checksum_same_and_idempotent (env : Env) (address block cs : String)
    (h : to_checksum_address env.keccak address = .ok cs) :
    EVMClient.get_balance ⟨env⟩ address block
        = .ok ⟨env.eth_get_balance cs block, from_wei (env.eth_get_balance cs block)⟩ ∧
    EVMClient.get_transaction_count ⟨env⟩ address block
        = .ok (env.eth_get_transaction_count cs block) ∧
    to_checksum_address env.keccak cs = .ok cs := by
  refine ⟨?_, ?_, to_checksum_address_idem env.keccak address cs h⟩
  · rw [EVMClient.get_balance]
    dsimp only
    rw [h]
  · rw [EVMClient.get_transaction_count]
    dsimp only
    rw [h]

/-- Witness for C7 at a concrete mixed-case address and hash function. -/
theorem c7_checksum_same_and_idempotent_witness :
    to_checksum_address sampleEnvUp.keccak sampleAddress
        = .ok "0xab5801a7d398351b8be11c439e05c5b3259aec9b" ∧
    (EVMClient.get_balance ⟨sampleEnvUp⟩ sampleAddress "latest"
        = .ok ⟨sampleEnvUp.eth_get_balance "0xab5801a7d398351b8be11c439e05c5b3259aec9b" "latest",
               from_wei (sampleEnvUp.eth_get_balance
                 "0xab5801a7d398351b8be11c439e05c5b3259aec9b" "latest")⟩ ∧
     EVMClient.get_transaction_count ⟨sampleEnvUp⟩ sampleAddress "latest"
        = .ok (sampleEnvUp.eth_get_transaction_count
                 "0xab5801a7d398351b8be11c439e05c5b3259aec9b" "latest") ∧
     to_checksum_address sampleEnvUp.keccak "0xab5801a7d398351b8be11c439e05c5b3259aec9b"
        = .ok "0xab5801a7d398351b8be11c439e05c5b3259aec9b") :=
  ⟨rfl, c7_checksum_same_and_idempotent sampleEnvUp sampleAddress "latest"
      "0xab5801a7d398351b8be11c439e05c5b3259aec9b" rfl⟩

/-- C8: normalisation turns an `AttributeDict` into a plain mapping with the
same keys in the same order and the values normalised in place, and turns a
list or tuple into one of the same kind and length with the elements
normalised in their original order. -/
theorem c8_mappings_and_sequences_preserved :
    (∀ kvs kvs', normPairs kvs = .ok kvs' →
      _normalise (Value.attrDict kvs) = .ok (Value.dict kvs') ∧
      kvs'.map Prod.fst = kvs.map Prod.fst ∧
      kvs'.length = kvs.length ∧
      kvs.map (fun p => _normalise p.2) = kvs'.map (fun p => Except.ok p.2)) ∧
    (∀ items items', normList items = .ok items' →
      _normalise (Value.list items) = .ok (Value.list items') ∧
      items'.length = items.length ∧
      items.map _normalise = items'.map Except.ok) ∧
    (∀ items items', normList items = .ok items' →
      _normalise (Value.tuple items) = .ok (Value.tuple items') ∧
      items'.length = items.length ∧
      items.map _normalise = items'.map Except.ok) := by
  refine ⟨?_, ?_, ?_⟩
  · intro kvs kvs' h
    obtain ⟨hkeys, hlen, _⟩ := normPairs_spec kvs kvs' h
    exact ⟨by rw [_normalise, h]; rfl, hkeys, hlen, normPairs_map kvs kvs' h⟩
  · intro items items' h
    obtain ⟨hlen, _⟩ := normList_spec items items' h
    exact ⟨by rw [_normalise, h]; rfl, hlen, normList_map items items' h⟩
  · intro items items' h
    obtain ⟨hlen, _⟩ := normList_spec items items' h
    exact ⟨by rw [_normalise, h]; rfl, hlen, normList_map items items' h⟩

/-- Witness for C8 at a concrete mapping, list and tuple. -/
theorem c8_mappings_and_sequences_preserved_witness :
    (normPairs [("k", Value.bytes [1]), ("m", Value.int 2)]
        = .ok [("k", Value.str "01"), ("m", Value.int 2)] ∧
     _normalise (Value.attrDict [("k", Value.bytes [1]), ("m", Value.int 2)])
        = .ok (Value.dict [("k", Value.str "01"), ("m", Value.int 2)]) ∧
     ([("k", Value.str "01"), ("m", Value.int 2)].map Prod.fst
        = [("k", Value.bytes [1]), ("m", Value.int 2)].map Prod.fst) ∧
     ([("k", Value.str "01"), ("m", Value.int 2)] : List (String × Value)).length
        = ([("k", Value.bytes [1]), ("m", Value.int 2)] : List (String × Value)).length ∧
     [("k", Value.bytes [1]), ("m", Value.int 2)].map (fun p => _normalise p.2)
        = [("k", Value.str "01"), ("m", Value.int 2)].map (fun p => Except.ok p.2)) ∧
    (normList [Value.bytes [255], Value.none]
        = .ok [Value.str "ff", Value.none] ∧
     _normalise (Value.list [Value.bytes [255], Value.none])
        = .ok (Value.list [Value.str "ff", Value.none]) ∧
     ([Value.str "ff", Value.none] : List Value).length
        = ([Value.bytes [255], Value.none] : List Value).length ∧
     [Value.bytes [255], Value.none].map _normalise
        = [Value.str "ff", Value.none].map Except.ok) ∧
    (_normalise (Value.tuple [Value.bytes [255], Value.none])
        = .ok (Value.tuple [Value.str "ff", Value.none])) := by
  refine ⟨⟨rfl, ?_⟩, ⟨rfl, ?_⟩, ?_⟩
  · exact And.intro
      (c8_mappings_and_sequences_preserved.1 _ _ (by rfl)).1
      ⟨(c8_mappings_and_sequences_preserved.1 _ _ (by rfl)).2.1,
       (c8_mappings_and_sequences_preserved.1 _ _ (by rfl)).2.2.1,
       (c8_mappings_and_sequences_preserved.1 _ _ (by rfl)).2.2.2⟩
  · exact ⟨(c8_mappings_and_sequences_preserved.2.1 _ _ (by rfl)).1,
      (c8_mappings_and_sequences_preserved.2.1 _ _ (by rfl)).2.1,
      (c8_mappings_and_sequences_preserved.2.1 _ _ (by rfl)).2.2⟩
  · exact (c8_mappings_and_sequences_preserved.2.2 _ _ (by rfl)).1

/-- C9: a Python float is not passed through `_normalise` unchanged: the
duck-typed probe matches the float's callable `hex` method, so the result is
the float's hexadecimal string representation (1.5 becomes `0x1.8p+0`), and a
string is never the same value as a float. -/
theorem c9_float_becomes_hex_string (h j : String) :
    _normalise (Value.float h j) = .ok (Value.str h) ∧
    (∀ h2 j2, Value.str h ≠ Value.float h2 j2) ∧
    _normalise (Value.float "0x1.8p+0" "1.5") = .ok (Value.str "0x1.8p+0") :=
  ⟨rfl, fun _ _ hh => Value.noConfusion hh, rfl⟩

/-- C10: every argument vector the parser accepts carries one of exactly the
four subcommands `info`, `balance`, `tx-count`, `call`, and `run_cli` never
reaches its final `AssertionError` raise. -/
theorem c10_dispatch_exhaustive (env : Env) (argv : List String) (args : Args)
    (hp : parse_args argv = .ok args) :
    (args.command = "info" ∨ args.command = "balance" ∨
     args.command = "tx-count" ∨ args.command = "call") ∧
    isAssertionFailure (run_cli env argv) = false :=
  ⟨parse_args_command argv args hp, run_cli_no_assertion env argv⟩

/-- Witness for C10 at a concrete command line. -/
theorem c10_dispatch_exhaustive_witness :
    parse_args ["http://localhost:8545", "tx-count", "0xAB5801a7D398351b8bE11C439e05C5B3259aeC9B"]
        = .ok ⟨"http://localhost:8545", "tx-count",
               "0xAB5801a7D398351b8bE11C439e05C5B3259aeC9B", "latest", "", []⟩ ∧
    (("tx-count" : String) = "info" ∨ ("tx-count" : String) = "balance" ∨
     ("tx-count" : String) = "tx-count" ∨ ("tx-count" : String) = "call") ∧
    isAssertionFailure (run_cli sampleEnvUp
        ["http://localhost:8545", "tx-count", "0xAB5801a7D398351b8bE11C439e05C5B3259aeC9B"])
      = false :=
  ⟨by rfl, c10_dispatch_exhaustive sampleEnvUp
      ["http://localhost:8545", "tx-count", "0xAB5801a7D398351b8bE11C439e05C5B3259aeC9B"]
      ⟨"http://localhost:8545", "tx-count",
       "0xAB5801a7D398351b8bE11C439e05C5B3259aeC9B", "latest", "", []⟩ (by rfl)⟩
